import Mathlib

/-!
Verification of the auto-route core library (spatial grid, neighbor-density
classifier, dense-cluster avoidance, greedy route builder, parameter tuner).

The TypeScript source is embedded shallowly: JS numbers become exact rationals
(ℚ), `Math.floor`/`Math.ceil` become `Int.floor`/`Int.ceil`, the string-keyed
`Map` of grid cells becomes an association list keyed by `ℤ × ℤ` (the string
key `"cx,cy"` is injective in the integer pair), JS `Set` becomes a list with
membership, and the sentinel `Infinity` becomes `Option ℚ` with `none` for
infinity.  All definitions are computable so concrete scenarios evaluate by
`decide`.
-/

namespace AutoRoute

/-- Planar coordinates, source type `XY`. -/
structure XY where
  x : ℚ
  y : ℚ
deriving DecidableEq

/-- A spawn point, source type `SpawnXYZ`: identity is `id`, `z` is carried
only. -/
structure SpawnXYZ where
  id : ℤ
  x : ℚ
  y : ℚ
  z : ℚ
deriving DecidableEq

/-- Viewing a spawn point as its planar coordinates (TS structural subtyping
passes a `SpawnXYZ` where an `XY` is expected). -/
def SpawnXYZ.toXY (p : SpawnXYZ) : XY := ⟨p.x, p.y⟩

/-- Source `dist2`: squared planar distance. -/
def dist2 (a b : XY) : ℚ :=
  (a.x - b.x) * (a.x - b.x) + (a.y - b.y) * (a.y - b.y)

/-- Source `routeCost`: sum of squared consecutive step distances. -/
def routeCost : List SpawnXYZ → ℚ
  | [] => 0
  | [_] => 0
  | a :: b :: rest => dist2 a.toXY b.toXY + routeCost (b :: rest)

/-- Source `toCell`: `Math.floor(value / cellSize)`. -/
def toCell (value cellSize : ℚ) : ℤ := ⌊value / cellSize⌋

/-- Cell key of a planar position (source `cellKey` applied to both cell
coordinates; the string `"cx,cy"` is injective in the pair). -/
abbrev CellKey := ℤ × ℤ

/-- The cell map of a spatial index: association list in insertion order,
mirroring the JS `Map<string, T[]>`. -/
def CellMap (T : Type) := List (CellKey × List T)

/-- `cells.get(key)` of the JS `Map`. -/
def cellsGet {T : Type} (m : CellMap T) (k : CellKey) : Option (List T) :=
  (List.find? (fun e => e.1 = k) m).map (·.2)

/-- Bucket lookup defaulting to the empty bucket (a missing bucket is skipped
by every loop in the source, which is the same as scanning an empty one). -/
def bucketGetD {T : Type} (m : CellMap T) (k : CellKey) : List T :=
  (cellsGet m k).getD []

/-- One step of `buildSpatialIndex`'s insertion loop: push onto an existing
bucket, else `set(key, [item])` (which appends a new entry in JS `Map`
insertion order). -/
def bucketInsert {T : Type} : CellMap T → CellKey → T → CellMap T
  | [], k, item => [(k, [item])]
  | (k', b) :: rest, k, item =>
      if k' = k then (k', b ++ [item]) :: rest
      else (k', b) :: bucketInsert rest k item

/-- Source `SpatialIndex<T>`. -/
structure SpatialIndex (T : Type) where
  cellSize : ℚ
  cells : CellMap T

/-- Source `buildSpatialIndex`: cell size clamped to `1e-6`, each item pushed
into the bucket of its cell. -/
def buildSpatialIndex {T : Type} (items : List T) (cellSize : ℚ)
    (getXY : T → XY) : SpatialIndex T :=
  let safeCellSize := max (1 / 1000000) cellSize
  let cells := items.foldl (fun m item =>
    bucketInsert m
      (toCell (getXY item).x safeCellSize, toCell (getXY item).y safeCellSize)
      item) []
  ⟨safeCellSize, cells⟩

/-- Inclusive integer range `[lo, hi]`, the iteration space of
`for (let d = lo; d <= hi; d += 1)`. -/
def intRangeIncl (lo hi : ℤ) : List ℤ :=
  (List.range (hi + 1 - lo).toNat).map (fun (i : ℕ) => lo + (i : ℤ))

/-- Source `queryPointsWithin`: scan the `(2·range+1)²` cell window around the
center's cell (outer loop `dy`, inner loop `dx`) and keep points with squared
distance at most `radius²`. -/
def queryPointsWithin (index : SpatialIndex SpawnXYZ) (center : XY)
    (radius : ℚ) : List SpawnXYZ :=
  if ¬ radius > 0 then []
  else if index.cells.length = 0 then []
  else
    let r2 := radius * radius
    let cx := toCell center.x index.cellSize
    let cy := toCell center.y index.cellSize
    let range := ⌈radius / index.cellSize⌉
    ((intRangeIncl (-range) range).map (fun dy =>
      ((intRangeIncl (-range) range).map (fun dx =>
        (bucketGetD index.cells (cx + dx, cy + dy)).filter (fun p =>
          decide ((p.x - center.x) * (p.x - center.x) +
            (p.y - center.y) * (p.y - center.y) ≤ r2)))).flatten)).flatten

/-- Source `dist2PointToSegment`: squared distance from `p` to segment `a→b`,
with the degenerate-segment guard `abLen2 < 1e-12` returning the distance to
`a`, else the projection parameter `t` clamped to `[0,1]`. -/
def dist2PointToSegment (p a b : XY) : ℚ :=
  let abx := b.x - a.x
  let aby := b.y - a.y
  let apx := p.x - a.x
  let apy := p.y - a.y
  let abLen2 := abx * abx + aby * aby
  if abLen2 < 1 / 1000000000000 then apx * apx + apy * apy
  else
    let t := max 0 (min 1 ((apx * abx + apy * aby) / abLen2))
    let cx := a.x + t * abx
    let cy := a.y + t * aby
    (p.x - cx) * (p.x - cx) + (p.y - cy) * (p.y - cy)

/-- The `Map<number, number>` of neighbor counts, as an association list in
insertion order. -/
def CountMap := List (ℤ × ℕ)

/-- JS `Map.set`: update an existing key in place, else append. -/
def countSet : CountMap → ℤ → ℕ → CountMap
  | [], k, v => [(k, v)]
  | (k', v') :: rest, k, v =>
      if k' = k then (k', v) :: rest
      else (k', v') :: countSet rest k v

/-- JS `Map.get` on the counts map. -/
def countGet (m : CountMap) (k : ℤ) : Option ℕ :=
  (List.find? (fun e => e.1 = k) m).map (·.2)

/-- The inner cell-window count of `computeNeighborCounts` for one point:
the nested `dy`/`dx`/bucket loop incrementing `count` for every scanned point
with squared distance at most `r2`. -/
def gridCountAt (index : SpatialIndex SpawnXYZ) (range : ℤ) (r2 : ℚ)
    (p : SpawnXYZ) : ℕ :=
  ((intRangeIncl (-range) range).map (fun dy =>
    ((intRangeIncl (-range) range).map (fun dx =>
      ((bucketGetD index.cells
        (toCell p.x index.cellSize + dx,
          toCell p.y index.cellSize + dy)).filter (fun o =>
        decide ((o.x - p.x) * (o.x - p.x) + (o.y - p.y) * (o.y - p.y) ≤
          r2))).length)).sum)).sum

/-- Source `computeNeighborCounts`: empty input gives an empty map; a
non-positive radius assigns count 1 to every id; otherwise each point gets its
grid-window neighbor count (self-inclusive). -/
def computeNeighborCounts (points : List SpawnXYZ) (radius : ℚ) : CountMap :=
  if points.length = 0 then []
  else if ¬ radius > 0 then
    points.foldl (fun m p => countSet m p.id 1) []
  else
    points.foldl (fun m p => countSet m p.id
      (gridCountAt (buildSpatialIndex points radius (fun q => ⟨q.x, q.y⟩))
        ⌈radius /
          (buildSpatialIndex points radius (fun q => ⟨q.x, q.y⟩)).cellSize⌉
        (radius * radius) p)) []

/-- Specification-side brute-force neighbor count: the number of points of the
list (the point itself included) whose planar squared distance to `p` is at
most `radius²`.  Stated from the spec's words, for comparison with the
grid-accelerated count. -/
def bruteForceNeighborCount (points : List SpawnXYZ) (p : SpawnXYZ)
    (radius : ℚ) : ℕ :=
  (points.filter (fun q => decide (dist2 q.toXY p.toXY ≤ radius * radius))).length

/-- Source `segmentAvoidsDense`: passes (`true`) unless some dense point in the
cells overlapping the segment's bounding box (expanded by `avoidRadius`) has
squared segment distance at most `avoidRadius²`.  `List.all` short-circuits on
the first hit exactly like the source's early `return false`. -/
def segmentAvoidsDense (a b : XY) (denseIndex : Option (SpatialIndex SpawnXYZ))
    (avoidRadius : ℚ) : Bool :=
  match denseIndex with
  | none => true
  | some index =>
    if ¬ avoidRadius > 0 then true
    else if index.cells.length = 0 then true
    else
      let minX := min a.x b.x - avoidRadius
      let maxX := max a.x b.x + avoidRadius
      let minY := min a.y b.y - avoidRadius
      let maxY := max a.y b.y + avoidRadius
      let minCx := toCell minX index.cellSize
      let maxCx := toCell maxX index.cellSize
      let minCy := toCell minY index.cellSize
      let maxCy := toCell maxY index.cellSize
      let r2 := avoidRadius * avoidRadius
      (intRangeIncl minCy maxCy).all (fun cy =>
        (intRangeIncl minCx maxCx).all (fun cx =>
          (bucketGetD index.cells (cx, cy)).all (fun dense =>
            ! decide (dist2PointToSegment dense.toXY a b ≤ r2))))

/-- Source `AutoRouteSettings` (`maxWaypoints` is a JS number, floored by the
route builder itself). -/
structure AutoRouteSettings where
  center : XY
  maxAreaRadius : ℚ
  maxStepDistance : ℚ
  maxWaypoints : ℚ
  avoidDenseTravelRadius : ℚ
deriving DecidableEq

/-- Source `AutoRouteStats`. -/
structure AutoRouteStats where
  total : ℕ
  inArea : ℕ
  denseInArea : ℕ
  safeInArea : ℕ
  picked : ℕ
deriving DecidableEq

/-- Source `AutoRouteResult`. -/
structure AutoRouteResult where
  route : List SpawnXYZ
  stats : AutoRouteStats
deriving DecidableEq

/-- `Math.max(0, Math.floor(maxWaypoints))`, with the source's redundant
`safeMax > 0 ? safeMax : 0` collapse. -/
def capWaypoints (q : ℚ) : ℕ := (max 0 ⌊q⌋).toNat

/-- `x ≤ bound` against an optional upper bound, `none` standing for the
source's `Infinity` sentinel. -/
def leD (x : ℚ) : Option ℚ → Bool
  | none => true
  | some b => decide (x ≤ b)

/-- `x > bound` against an optional upper bound (`none` = `Infinity`, which
nothing exceeds). -/
def gtD (x : ℚ) : Option ℚ → Bool
  | none => false
  | some b => decide (x > b)

/-- `maxAreaR2`: squared area radius, `Infinity` when the radius is
unbounded. -/
def maxAreaR2Of (maxAreaRadius : ℚ) : Option ℚ :=
  if maxAreaRadius > 0 then some (maxAreaRadius * maxAreaRadius) else none

/-- `maxStep2`: squared step bound, `Infinity` when the step is unbounded. -/
def maxStep2Of (maxStep : ℚ) : Option ℚ :=
  if maxStep > 0 then some (maxStep * maxStep) else none

/-- The `inArea` filter of `generateAutoRoute`. -/
def inAreaOf (points : List SpawnXYZ) (settings : AutoRouteSettings) :
    List SpawnXYZ :=
  points.filter (fun p =>
    leD (dist2 settings.center p.toXY) (maxAreaR2Of settings.maxAreaRadius))

/-- `travelR2`: squared radius for collecting travel-relevant dense points. -/
def travelR2Of (maxAreaRadius avoidRadius : ℚ) : Option ℚ :=
  if maxAreaRadius > 0 ∧ avoidRadius > 0 then
    some ((maxAreaRadius + avoidRadius) * (maxAreaRadius + avoidRadius))
  else none

/-- `denseForTravel`: dense points near enough to matter while walking. -/
def denseForTravelOf (points : List SpawnXYZ) (denseIds : List ℤ)
    (settings : AutoRouteSettings) : List SpawnXYZ :=
  if settings.avoidDenseTravelRadius > 0 then
    points.filter (fun p =>
      denseIds.contains p.id &&
      leD (dist2 settings.center p.toXY)
        (travelR2Of settings.maxAreaRadius settings.avoidDenseTravelRadius))
  else []

/-- `denseIndex`: spatial index over `denseForTravel`, `none` when avoidance is
off or there is nothing to avoid. -/
def denseIndexOf (points : List SpawnXYZ) (denseIds : List ℤ)
    (settings : AutoRouteSettings) : Option (SpatialIndex SpawnXYZ) :=
  let denseForTravel := denseForTravelOf points denseIds settings
  if settings.avoidDenseTravelRadius > 0 ∧ denseForTravel.length > 0 then
    some (buildSpatialIndex denseForTravel settings.avoidDenseTravelRadius
      SpawnXYZ.toXY)
  else none

/-- The per-walk context assembled by `generateAutoRoute` before the greedy
walks: the source's local constants captured by `buildGreedyPath`. -/
structure RouteCtx where
  center : XY
  maxStep : ℚ
  avoidRadius : ℚ
  safeInArea : List SpawnXYZ
  safeIndex : Option (SpatialIndex SpawnXYZ)
  stepNeighborCounts : CountMap
  denseIndex : Option (SpatialIndex SpawnXYZ)
  maxWaypoints : ℕ

/-- `(stepNeighborCounts.get(id) ?? 1) - 1`. -/
def localDegOf (ctx : RouteCtx) (p : SpawnXYZ) : ℤ :=
  (((countGet ctx.stepNeighborCounts p.id).getD 1 : ℕ) : ℤ) - 1

/-- Candidate pool at the current tip: grid query when the step is bounded,
else the whole safe set (`safeInArea.slice()`). -/
def candidatesAt (ctx : RouteCtx) (current : SpawnXYZ) : List SpawnXYZ :=
  match ctx.safeIndex with
  | some idx =>
      if ctx.maxStep > 0 ∧ (maxStep2Of ctx.maxStep).isSome then
        queryPointsWithin idx current.toXY ctx.maxStep
      else ctx.safeInArea
  | none => ctx.safeInArea

/-- Forward degree of a candidate: its unvisited safe neighbors within one
step, or the remaining-unvisited count when the step is unbounded. -/
def degreeAt (ctx : RouteCtx) (visited : List ℤ) (candidate : SpawnXYZ) : ℤ :=
  match ctx.safeIndex with
  | some idx =>
      if ctx.maxStep > 0 ∧ (maxStep2Of ctx.maxStep).isSome then
        (((queryPointsWithin idx candidate.toXY ctx.maxStep).filter (fun n =>
          ! decide (n.id = candidate.id) && ! visited.contains n.id)).length : ℤ)
      else (ctx.safeInArea.length : ℤ) - (visited.length : ℤ)
  | none => (ctx.safeInArea.length : ℤ) - (visited.length : ℤ)

/-- The best-so-far record of the candidate loop (`best`, `bestDegree`,
`bestLocal`, `bestStepD2`, `bestCenterD2`); `none` is the initial state, in
which any surviving candidate wins because its degree is at least 0 > -1. -/
structure Choice where
  point : SpawnXYZ
  degree : ℤ
  localDeg : ℤ
  stepD2 : ℚ
  centerD2 : ℚ

/-- The strict-priority tie-break chain of the candidate loop (`degree`, then
`local`, then step distance, then center distance); `none` is the initial
`bestDegree = -1` state, which any real candidate beats. -/
def pickBetter (st : Option Choice) (cand : Choice) : Option Choice :=
  match st with
  | none => some cand
  | some b =>
    if cand.degree > b.degree then some cand
    else if cand.degree < b.degree then some b
    else if cand.localDeg > b.localDeg then some cand
    else if cand.localDeg < b.localDeg then some b
    else if cand.stepD2 < b.stepD2 then some cand
    else if cand.stepD2 > b.stepD2 then some b
    else if cand.centerD2 < b.centerD2 then some cand
    else some b

/-- One iteration of the candidate loop of `buildGreedyPath`: the `continue`
guards followed by the tie-break chain. -/
def considerCandidate (ctx : RouteCtx) (current : SpawnXYZ) (visited : List ℤ)
    (st : Option Choice) (candidate : SpawnXYZ) : Option Choice :=
  if candidate.id = current.id then st
  else if visited.contains candidate.id then st
  else if gtD (dist2 current.toXY candidate.toXY)
      (maxStep2Of ctx.maxStep) then st
  else if ¬ segmentAvoidsDense current.toXY candidate.toXY ctx.denseIndex
      ctx.avoidRadius then st
  else
    pickBetter st
      ⟨candidate, degreeAt ctx visited candidate, localDegOf ctx candidate,
        dist2 current.toXY candidate.toXY, dist2 ctx.center candidate.toXY⟩

/-- The `while (route.length < maxWaypoints)` loop of `buildGreedyPath`, with
the remaining budget as fuel; `current` is the path tip `route[route.length-1]`
and `visited` the set of ids already on the path. -/
def buildGreedyPathLoop (ctx : RouteCtx) :
    ℕ → List SpawnXYZ → SpawnXYZ → List ℤ → List SpawnXYZ
  | 0, route, _, _ => route
  | Nat.succ fuel, route, current, visited =>
    match (candidatesAt ctx current).foldl
        (considerCandidate ctx current visited) none with
    | none => route
    | some c =>
        buildGreedyPathLoop ctx fuel (route ++ [c.point]) c.point
          (c.point.id :: visited)

/-- Source `buildGreedyPath`: start with `[start]` and extend greedily while
the waypoint budget allows. -/
def buildGreedyPath (ctx : RouteCtx) (start : SpawnXYZ) : List SpawnXYZ :=
  buildGreedyPathLoop ctx (ctx.maxWaypoints - 1) [start] start [start.id]

/-- The `closestToCenter` fold: first point of strictly smallest squared
distance to center (`bestD2` starts at `Infinity`, so the first point always
installs itself). -/
def closestToCenterOf (ctx : RouteCtx) : Option SpawnXYZ :=
  (ctx.safeInArea.foldl (fun st p =>
    match st with
    | none => some (p, dist2 ctx.center p.toXY)
    | some (_, bestD2) =>
        if dist2 ctx.center p.toXY < bestD2 then
          some (p, dist2 ctx.center p.toXY)
        else st) none).map (·.1)

/-- One entry of `scoredStarts`. -/
structure ScoredStart where
  point : SpawnXYZ
  localDeg : ℤ
  centerD2 : ℚ

/-- The `scoredStarts` comparator as a total boolean order (`cmp(a,b) ≤ 0`):
local degree descending, then center distance ascending, then id ascending.
A stable merge sort under this order coincides with the stable JS sort. -/
def startLE (a b : ScoredStart) : Bool :=
  if a.localDeg ≠ b.localDeg then b.localDeg ≤ a.localDeg
  else if a.centerD2 ≠ b.centerD2 then a.centerD2 ≤ b.centerD2
  else a.point.id ≤ b.point.id

/-- `scoredStarts`: every safe point scored and sorted. -/
def scoredStartsOf (ctx : RouteCtx) : List ScoredStart :=
  (ctx.safeInArea.map (fun p =>
    ScoredStart.mk p (localDegOf ctx p) (dist2 ctx.center p.toXY))).mergeSort
    startLE

/-- `startCandidates`: the top 12 scored starts, plus the closest-to-center
point when its id is not already among them. -/
def startCandidatesOf (ctx : RouteCtx) : List SpawnXYZ :=
  let base := ((scoredStartsOf ctx).take 12).map (·.point)
  match closestToCenterOf ctx with
  | some c => if base.any (fun p => p.id = c.id) then base else base ++ [c]
  | none => base

/-- The multi-start selection loop: run the greedy walk from every start
candidate, keep the longest route, break length ties by lower squared-step
cost. -/
def pickBestRoute (ctx : RouteCtx) (start0 : SpawnXYZ) (rest : List SpawnXYZ) :
    List SpawnXYZ :=
  let first := buildGreedyPath ctx start0
  (rest.foldl (fun best start =>
    let route := buildGreedyPath ctx start
    if route.length > best.1.length then (route, routeCost route)
    else if route.length = best.1.length then
      let cost := routeCost route
      if cost < best.2 then (route, cost) else best
    else best) (first, routeCost first)).1

/-- `safeIndex`: spatial grid over the safe points when the step is bounded. -/
def safeIndexOf (safeInArea : List SpawnXYZ) (maxStep : ℚ) :
    Option (SpatialIndex SpawnXYZ) :=
  if maxStep > 0 then some (buildSpatialIndex safeInArea maxStep SpawnXYZ.toXY)
  else none

/-- `stepNeighborCounts`: neighbor counts of the safe points at the step
radius, empty map when the step is unbounded. -/
def stepCountsOf (safeInArea : List SpawnXYZ) (maxStep : ℚ) : CountMap :=
  if maxStep > 0 then computeNeighborCounts safeInArea maxStep else []

/-- Source `generateAutoRoute`. -/
def generateAutoRoute (points : List SpawnXYZ) (denseIds : List ℤ)
    (settings : AutoRouteSettings) : AutoRouteResult :=
  let total := points.length
  let maxWaypoints := capWaypoints settings.maxWaypoints
  let inArea := inAreaOf points settings
  let denseInArea := inArea.filter (fun p => denseIds.contains p.id)
  let safeInArea := inArea.filter (fun p => ! denseIds.contains p.id)
  let emptyRes : AutoRouteResult :=
    ⟨[], ⟨total, inArea.length, denseInArea.length, safeInArea.length, 0⟩⟩
  if maxWaypoints = 0 then emptyRes
  else
    match safeInArea with
    | [] => emptyRes
    | s0 :: _ =>
      let ctx : RouteCtx :=
        { center := settings.center
          maxStep := settings.maxStepDistance
          avoidRadius := settings.avoidDenseTravelRadius
          safeInArea := safeInArea
          safeIndex := safeIndexOf safeInArea settings.maxStepDistance
          stepNeighborCounts := stepCountsOf safeInArea settings.maxStepDistance
          denseIndex := denseIndexOf points denseIds settings
          maxWaypoints := maxWaypoints }
      let startCandidates := startCandidatesOf ctx
      let start0 := startCandidates.head?.getD s0
      let bestRoute := pickBestRoute ctx start0 (startCandidates.drop 1)
      ⟨bestRoute,
        ⟨total, inArea.length, denseInArea.length, safeInArea.length,
          bestRoute.length⟩⟩

/-- Source `TunedAutoRouteParams`. -/
structure TunedAutoRouteParams where
  clusterRadius : ℚ
  maxAreaRadius : ℚ
  maxStepDistance : ℚ
  avoidDenseTravelRadius : ℚ
  dirtySupportRadius : ℚ
deriving DecidableEq

/-- Source `uniqueSorted`: keep finite positive values (every rational is
finite), sort ascending, drop values within `1e-9` of the previously kept
one. -/
def uniqueSorted (values : List ℚ) : List ℚ :=
  let cleaned := (values.filter (fun v => decide (v > 0))).mergeSort
    (fun a b => a ≤ b)
  (cleaned.foldl (fun (st : List ℚ × Option ℚ) v =>
    match st.2 with
    | none => (st.1 ++ [v], some v)
    | some last =>
        if |v - last| > 1 / 1000000000 then (st.1 ++ [v], some v) else st)
    ([], none)).1

/-- JS `list[i] ?? d` for a possibly negative index. -/
def getAtIntD (l : List ℚ) (i : ℤ) (d : ℚ) : ℚ :=
  if 0 ≤ i then l.getD i.toNat d else d

/-- Source `estimateBaseSpacing`, parameterised by the interpretation of
`Math.sqrt` (exact square roots leave ℚ).  `none` models the `Infinity`
returned on an empty list, whose bounding box is degenerate at infinity. -/
def estimateBaseSpacingRaw (sqrtQ : ℚ → ℚ) : List SpawnXYZ → Option ℚ
  | [] => none
  | p :: rest =>
      let pts := p :: rest
      let minX := (rest.map (·.x)).foldl min p.x
      let maxX := (rest.map (·.x)).foldl max p.x
      let minY := (rest.map (·.y)).foldl min p.y
      let maxY := (rest.map (·.y)).foldl max p.y
      let width := maxX - minX
      let height := maxY - minY
      let area := width * height
      if area > 0 then some (sqrtQ (area / max 1 (pts.length : ℚ)))
      else
        let extent := max |width| |height|
        if extent > 0 then some (extent / sqrtQ (max 1 (pts.length : ℚ)))
        else some 0

/-- Source `tuneAutoRouteParams`, parameterised by the interpretation of
`Math.sqrt`: grid-search over cluster radii and step distances, scoring each
trial by running `generateAutoRoute`. -/
def tuneAutoRouteParams (sqrtQ : ℚ → ℚ) (points : List SpawnXYZ) (center : XY)
    (maxWaypoints : ℚ) : Option TunedAutoRouteParams :=
  let cappedWaypoints := capWaypoints maxWaypoints
  if cappedWaypoints = 0 then none
  else if points.length = 0 then none
  else
    let localCount :=
      min points.length (max 2000 (min 5000 (cappedWaypoints * 200)))
    let byDistance :=
      (((points.map (fun p => (p, dist2 center p.toXY))).mergeSort
        (fun a b => a.2 ≤ b.2)).take localCount).map (·.1)
    let baseSpacing :=
      match estimateBaseSpacingRaw sqrtQ byDistance with
      | some v => if v > 0 then v else 200
      | none => 200
    let dirtySupportRadius := baseSpacing * 6
    let dirtyCounts := computeNeighborCounts points dirtySupportRadius
    let dirtyIds :=
      (points.filter (fun p => (countGet dirtyCounts p.id).getD 1 < 3)).map
        (·.id)
    let cleanedPoints := points.filter (fun p => ! dirtyIds.contains p.id)
    let basePoints :=
      if cleanedPoints.length ≥
          min points.length (max 100 (cappedWaypoints * 5)) then cleanedPoints
      else points
    let clusterCandidates := uniqueSorted
      [baseSpacing * (1 / 4), baseSpacing * (7 / 20), baseSpacing * (1 / 2),
        baseSpacing * (7 / 10), baseSpacing * 1, baseSpacing * (7 / 5),
        baseSpacing * 2]
    let best := clusterCandidates.foldl
      (fun (best : Option (TunedAutoRouteParams × ℕ × ℚ)) clusterRadius =>
        let counts := computeNeighborCounts basePoints clusterRadius
        let denseIds :=
          (basePoints.filter (fun p => (countGet counts p.id).getD 1 ≥ 3)).map
            (·.id)
        let safePoints := basePoints.filter (fun p => ! denseIds.contains p.id)
        if safePoints.length = 0 then best
        else
          let safeDistances :=
            (safePoints.map (fun p => sqrtQ (dist2 center p.toXY))).mergeSort
              (fun a b => a ≤ b)
          let targetSafe := min safeDistances.length
            (max (cappedWaypoints * 6) (min 400 (cappedWaypoints * 12)))
          let areaBase := getAtIntD safeDistances ((targetSafe : ℤ) - 1)
            (getAtIntD safeDistances ((safeDistances.length : ℤ) - 1) 0)
          let stepCandidates := (uniqueSorted
            [baseSpacing * (4 / 5), baseSpacing * 1, baseSpacing * (13 / 10),
              baseSpacing * (17 / 10), baseSpacing * (11 / 5), baseSpacing * 3,
              clusterRadius * (13 / 10), clusterRadius * (9 / 5),
              clusterRadius * (12 / 5), clusterRadius * (16 / 5)]).filter
            (fun v => decide (v > clusterRadius * (21 / 20)))
          stepCandidates.foldl (fun best maxStepDistance =>
            let maxAreaRadius := areaBase + maxStepDistance * (7 / 20)
            let avoidDenseTravelRadius :=
              max (clusterRadius * (23 / 20)) (maxStepDistance * (1 / 4))
            let result := generateAutoRoute basePoints denseIds
              { center := center
                maxAreaRadius := maxAreaRadius
                maxStepDistance := maxStepDistance
                maxWaypoints := (cappedWaypoints : ℚ)
                avoidDenseTravelRadius := avoidDenseTravelRadius }
            let params : TunedAutoRouteParams :=
              ⟨clusterRadius, maxAreaRadius, maxStepDistance,
                avoidDenseTravelRadius, dirtySupportRadius⟩
            let len := result.route.length
            let cost := routeCost result.route
            match best with
            | none => some (params, len, cost)
            | some b =>
              if len > b.2.1 then some (params, len, cost)
              else if len < b.2.1 then some b
              else if maxStepDistance < b.1.maxStepDistance then
                some (params, len, cost)
              else if maxStepDistance > b.1.maxStepDistance then some b
              else if cost < b.2.2 then some (params, len, cost)
              else some b) best) none
    best.map (·.1)

/-! ### Basic lemmas about the cell map and the counts map -/

lemma bucketGetD_nil {T : Type} (k : CellKey) :
    bucketGetD ([] : CellMap T) k = [] := rfl

lemma bucketGetD_bucketInsert {T : Type} (m : CellMap T) (c k : CellKey)
    (it : T) :
    bucketGetD (bucketInsert m c it) k =
      if c = k then bucketGetD m k ++ [it] else bucketGetD m k := by
  induction m with
  | nil =>
      by_cases h : c = k <;>
        simp [bucketInsert, bucketGetD, cellsGet, List.find?, h]
  | cons e rest ih =>
      obtain ⟨k', b⟩ := e
      by_cases hck : k' = c
      · subst hck
        by_cases h : k' = k <;>
          simp [bucketInsert, bucketGetD, cellsGet, List.find?, h]
      · by_cases h : k' = k
        · subst h
          simp only [bucketInsert, if_neg hck]
          have hck' : ¬ c = k' := fun hh => hck hh.symm
          simp [bucketGetD, cellsGet, List.find?, if_neg hck']
        · simp only [bucketInsert, if_neg hck]
          have hrec := ih
          simp [bucketGetD, cellsGet, List.find?, h] at hrec ⊢
          exact hrec

lemma bucketGetD_foldl_insert {T : Type} (key : T → CellKey) :
    ∀ (items : List T) (m : CellMap T) (k : CellKey),
      bucketGetD (items.foldl (fun m it => bucketInsert m (key it) it) m) k
        = bucketGetD m k ++ items.filter (fun it => decide (key it = k))
  | [], m, k => by simp
  | it :: rest, m, k => by
      rw [List.foldl_cons, bucketGetD_foldl_insert key rest]
      by_cases h : key it = k
      · simp [bucketGetD_bucketInsert, h, List.filter_cons]
      · simp [bucketGetD_bucketInsert, h, List.filter_cons]

/-- Every bucket of a built spatial index is exactly the input items falling in
that cell, in input order. -/
lemma bucketGetD_buildSpatialIndex {T : Type} (items : List T) (cellSize : ℚ)
    (getXY : T → XY) (k : CellKey) :
    bucketGetD (buildSpatialIndex items cellSize getXY).cells k
      = items.filter (fun it =>
          decide ((toCell (getXY it).x (max (1 / 1000000) cellSize),
            toCell (getXY it).y (max (1 / 1000000) cellSize)) = k)) := by
  have := bucketGetD_foldl_insert
    (fun it => (toCell (getXY it).x (max (1 / 1000000) cellSize),
      toCell (getXY it).y (max (1 / 1000000) cellSize))) items [] k
  simpa [buildSpatialIndex] using this

lemma bucketInsert_ne_nil {T : Type} (m : CellMap T) (c : CellKey) (it : T) :
    bucketInsert m c it ≠ [] := by
  cases m with
  | nil => simp [bucketInsert]
  | cons e rest =>
      obtain ⟨k', b⟩ := e
      by_cases h : k' = c <;> simp [bucketInsert, h]

lemma foldl_insert_ne_nil {T : Type} (key : T → CellKey) :
    ∀ (items : List T) (m : CellMap T), m ≠ [] →
      items.foldl (fun m it => bucketInsert m (key it) it) m ≠ []
  | [], m, hm => hm
  | it :: rest, m, _ => by
      rw [List.foldl_cons]
      exact foldl_insert_ne_nil key rest _ (bucketInsert_ne_nil m (key it) it)

lemma buildSpatialIndex_cells_ne_nil {T : Type} (items : List T)
    (cellSize : ℚ) (getXY : T → XY) (h : items ≠ []) :
    (buildSpatialIndex items cellSize getXY).cells ≠ [] := by
  cases items with
  | nil => exact absurd rfl h
  | cons it rest =>
      show List.foldl _ _ (it :: rest) ≠ []
      rw [List.foldl_cons]
      exact foldl_insert_ne_nil _ rest _ (bucketInsert_ne_nil [] _ it)

lemma countGet_countSet_self (m : CountMap) (k : ℤ) (v : ℕ) :
    countGet (countSet m k v) k = some v := by
  induction m with
  | nil => simp [countSet, countGet, List.find?]
  | cons e rest ih =>
      obtain ⟨k', v'⟩ := e
      by_cases h : k' = k
      · subst h
        simp [countSet, countGet, List.find?]
      · simp [countSet, countGet, List.find?, h] at ih ⊢
        exact ih

lemma countGet_countSet_ne (m : CountMap) (k k' : ℤ) (v : ℕ) (h : k' ≠ k) :
    countGet (countSet m k v) k' = countGet m k' := by
  have h2 : ¬ k = k' := fun hh => h hh.symm
  induction m with
  | nil => simp [countSet, countGet, List.find?, h2]
  | cons e rest ih =>
      obtain ⟨k₀, v₀⟩ := e
      by_cases hk : k₀ = k
      · subst hk
        simp [countSet, countGet, List.find?, h2]
      · by_cases hk' : k₀ = k'
        · subst hk'
          simp [countSet, countGet, List.find?, hk]
        · simp [countSet, countGet, List.find?, hk, hk'] at ih ⊢
          exact ih

/-- Ids never written by the counting fold keep their previous binding. -/
lemma countGet_foldl_countSet_not_mem (f : SpawnXYZ → ℕ) :
    ∀ (points : List SpawnXYZ) (m : CountMap) (i : ℤ),
      i ∉ points.map (·.id) →
      countGet (points.foldl (fun m p => countSet m p.id (f p)) m) i
        = countGet m i
  | [], m, i, _ => rfl
  | p :: rest, m, i, hi => by
      rw [List.foldl_cons]
      have hid : i ≠ p.id := by
        intro h; exact hi (by simp [h])
      have hrest : i ∉ rest.map (·.id) := by
        intro h; exact hi (by simp [h])
      rw [countGet_foldl_countSet_not_mem f rest _ i hrest,
        countGet_countSet_ne m p.id i (f p) hid]

/-- With unique ids, the counting fold binds each point's id to its own
count. -/
lemma countGet_foldl_countSet (f : SpawnXYZ → ℕ) :
    ∀ (points : List SpawnXYZ) (m : CountMap) (p : SpawnXYZ),
      (points.map (·.id)).Nodup → p ∈ points →
      countGet (points.foldl (fun m p => countSet m p.id (f p)) m) p.id
        = some (f p)
  | [], _, _, _, hp => absurd hp (by simp)
  | q :: rest, m, p, hnd, hp => by
      rw [List.foldl_cons]
      rcases List.mem_cons.mp hp with rfl | hp'
      · have hni : p.id ∉ rest.map (·.id) := by
          have := hnd
          simp only [List.map_cons, List.nodup_cons] at this
          exact this.1
        rw [countGet_foldl_countSet_not_mem f rest _ p.id hni,
          countGet_countSet_self]
      · have hnd' : (rest.map (·.id)).Nodup := by
          simp only [List.map_cons, List.nodup_cons] at hnd
          exact hnd.2
        exact countGet_foldl_countSet f rest _ p hnd' hp'

/-- When the written value is a constant, membership alone pins the result
(later writes overwrite with the same constant). -/
lemma countGet_foldl_countSet_const (v : ℕ) :
    ∀ (points : List SpawnXYZ) (m : CountMap) (i : ℤ),
      i ∈ points.map (·.id) →
      countGet (points.foldl (fun m p => countSet m p.id v) m) i = some v
  | [], _, _, hi => absurd hi (by simp)
  | q :: rest, m, i, hi => by
      rw [List.foldl_cons]
      by_cases hr : i ∈ rest.map (·.id)
      · exact countGet_foldl_countSet_const v rest _ i hr
      · have hq : i = q.id := by
          rcases List.mem_map.mp hi with ⟨x, hx, hxi⟩
          rcases List.mem_cons.mp hx with rfl | hx'
          · exact hxi.symm
          · exact absurd (List.mem_map.mpr ⟨x, hx', hxi⟩) hr
        subst hq
        rw [countGet_foldl_countSet_not_mem (fun _ => v) rest _ q.id hr,
          countGet_countSet_self]

/-! ### The cell window of a grid query covers everything within the radius -/

lemma mem_intRangeIncl {a lo hi : ℤ} :
    a ∈ intRangeIncl lo hi ↔ lo ≤ a ∧ a ≤ hi := by
  unfold intRangeIncl
  rw [List.mem_map]
  constructor
  · rintro ⟨i, hi', rfl⟩
    rw [List.mem_range] at hi'
    omega
  · rintro ⟨h1, h2⟩
    exact ⟨(a - lo).toNat, by rw [List.mem_range]; omega, by omega⟩

lemma nodup_intRangeIncl (lo hi : ℤ) : (intRangeIncl lo hi).Nodup := by
  unfold intRangeIncl
  refine List.Nodup.map ?_ (List.nodup_range _)
  intro a b h
  dsimp only at h
  omega

lemma countP_or_disjoint {α : Type} (p q : α → Bool) :
    ∀ (l : List α), (∀ x ∈ l, ¬(p x = true ∧ q x = true)) →
      l.countP (fun x => p x || q x) = l.countP p + l.countP q
  | [], _ => rfl
  | a :: l, h => by
      have hrec := countP_or_disjoint p q l
        (fun x hx => h x (List.mem_cons_of_mem a hx))
      have ha := h a (List.mem_cons_self a l)
      simp only [List.countP_cons, hrec]
      cases hp : p a
      · cases hq : q a
        · simp [hp, hq]
        · simp [hp, hq]
          omega
      · cases hq : q a
        · simp [hp, hq]
          omega
        · exact absurd ⟨hp, hq⟩ ha

lemma sum_countP_partition {α : Type} (l : List α) (f : α → ℤ) (P : α → Bool) :
    ∀ (w : List ℤ), w.Nodup →
      (w.map (fun k => l.countP (fun x => decide (f x = k) && P x))).sum
        = l.countP (fun x => decide (f x ∈ w) && P x)
  | [], _ => by simp
  | k :: ks, hnd => by
      have hkk : k ∉ ks := (List.nodup_cons.mp hnd).1
      have hrec := sum_countP_partition l f P ks (List.nodup_cons.mp hnd).2
      simp only [List.map_cons, List.sum_cons, hrec]
      rw [← countP_or_disjoint (fun x => decide (f x = k) && P x)
        (fun x => decide (f x ∈ ks) && P x) l ?disj]
      case disj =>
        rintro x _ ⟨h1, h2⟩
        simp only [Bool.and_eq_true, decide_eq_true_eq] at h1 h2
        exact hkk (h1.1 ▸ h2.1)
      apply List.countP_congr
      intro x _
      by_cases hfk : f x = k <;> by_cases hfks : f x ∈ ks <;>
        by_cases hP : P x = true <;> simp [hfk, hfks, hP]

lemma abs_le_of_d2_le {dx dy r : ℚ} (hr : 0 ≤ r)
    (h : dx * dx + dy * dy ≤ r * r) : |dx| ≤ r := by
  have h1 : dx ^ 2 ≤ r ^ 2 := by nlinarith [mul_self_nonneg dy]
  exact abs_le.mpr (abs_le_of_sq_le_sq' h1 hr)

/-- Being within `r` of `b` keeps the cell of `a` within `⌈r/cs⌉` rings of the
cell of `b`. -/
lemma toCell_window {cs : ℚ} (hcs : 0 < cs) {a b r : ℚ} (h : |a - b| ≤ r) :
    toCell b cs - ⌈r / cs⌉ ≤ toCell a cs ∧
      toCell a cs ≤ toCell b cs + ⌈r / cs⌉ := by
  have hab := abs_le.mp h
  have hrc : r / cs ≤ (⌈r / cs⌉ : ℚ) := Int.le_ceil _
  unfold toCell
  constructor
  · have hdiv : (b - r) / cs ≤ a / cs := by gcongr; linarith [hab.1]
    have heq : (b - r) / cs = b / cs - r / cs := by ring
    have hq : b / cs - (⌈r / cs⌉ : ℚ) ≤ a / cs := by
      rw [heq] at hdiv; linarith
    have hmono := Int.floor_mono hq
    rwa [Int.floor_sub_int] at hmono
  · have hdiv : a / cs ≤ (b + r) / cs := by gcongr; linarith [hab.2]
    have heq : (b + r) / cs = b / cs + r / cs := by ring
    have hq : a / cs ≤ b / cs + (⌈r / cs⌉ : ℚ) := by
      rw [heq] at hdiv; linarith
    have hmono := Int.floor_mono hq
    rwa [Int.floor_add_int] at hmono

/-- Monotonicity of the cell of a coordinate. -/
lemma toCell_mono {cs : ℚ} (hcs : 0 < cs) {a b : ℚ} (h : a ≤ b) :
    toCell a cs ≤ toCell b cs := by
  unfold toCell
  exact Int.floor_mono (by gcongr)

lemma nodup_map_add (c lo hi : ℤ) :
    ((intRangeIncl lo hi).map (fun d => c + d)).Nodup :=
  List.Nodup.map (fun a b h => by omega) (nodup_intRangeIncl lo hi)

lemma mem_map_add {c k lo hi : ℤ} :
    k ∈ (intRangeIncl lo hi).map (fun d => c + d) ↔
      c + lo ≤ k ∧ k ≤ c + hi := by
  rw [List.mem_map]
  constructor
  · rintro ⟨d, hd, rfl⟩
    have := mem_intRangeIncl.mp hd
    omega
  · rintro ⟨h1, h2⟩
    exact ⟨k - c, mem_intRangeIncl.mpr ⟨by omega, by omega⟩, by omega⟩

/-- Summing per-cell counts over the whole `(2·rng+1)²` window counts exactly
the items satisfying `P`, provided `P` forces the item's cell into the
window. -/
lemma window_sum_count (items : List SpawnXYZ) (cs : ℚ) (P : SpawnXYZ → Bool)
    (cx cy rng : ℤ)
    (hP : ∀ q ∈ items, P q = true →
      (cx - rng ≤ toCell q.x cs ∧ toCell q.x cs ≤ cx + rng) ∧
      (cy - rng ≤ toCell q.y cs ∧ toCell q.y cs ≤ cy + rng)) :
    ((intRangeIncl (-rng) rng).map (fun dy =>
      ((intRangeIncl (-rng) rng).map (fun dx =>
        items.countP (fun q => decide (toCell q.x cs = cx + dx) &&
          (decide (toCell q.y cs = cy + dy) && P q)))).sum)).sum
      = items.countP P := by
  have inner : ∀ dy : ℤ,
      ((intRangeIncl (-rng) rng).map (fun dx =>
        items.countP (fun q => decide (toCell q.x cs = cx + dx) &&
          (decide (toCell q.y cs = cy + dy) && P q)))).sum
      = items.countP (fun q =>
          decide (toCell q.x cs ∈ (intRangeIncl (-rng) rng).map
            (fun d => cx + d)) &&
          (decide (toCell q.y cs = cy + dy) && P q)) := by
    intro dy
    have hpart := sum_countP_partition items (fun q => toCell q.x cs)
      (fun q => decide (toCell q.y cs = cy + dy) && P q)
      ((intRangeIncl (-rng) rng).map (fun d => cx + d))
      (nodup_map_add cx (-rng) rng)
    rw [List.map_map] at hpart
    simpa [Function.comp] using hpart
  rw [List.map_congr_left (fun dy _ => inner dy)]
  have reorder : ∀ dy : ℤ,
      items.countP (fun q =>
        decide (toCell q.x cs ∈ (intRangeIncl (-rng) rng).map
          (fun d => cx + d)) &&
        (decide (toCell q.y cs = cy + dy) && P q))
      = items.countP (fun q => decide (toCell q.y cs = cy + dy) &&
          (decide (toCell q.x cs ∈ (intRangeIncl (-rng) rng).map
            (fun d => cx + d)) && P q)) := by
    intro dy
    apply List.countP_congr
    intro q _
    simp only [Bool.and_eq_true]
    tauto
  rw [List.map_congr_left (fun dy _ => reorder dy)]
  have hpart2 := sum_countP_partition items (fun q => toCell q.y cs)
    (fun q => decide (toCell q.x cs ∈ (intRangeIncl (-rng) rng).map
      (fun d => cx + d)) && P q)
    ((intRangeIncl (-rng) rng).map (fun d => cy + d))
    (nodup_map_add cy (-rng) rng)
  rw [List.map_map] at hpart2
  have outer :
      ((intRangeIncl (-rng) rng).map (fun dy =>
        items.countP (fun q => decide (toCell q.y cs = cy + dy) &&
          (decide (toCell q.x cs ∈ (intRangeIncl (-rng) rng).map
            (fun d => cx + d)) && P q)))).sum
      = items.countP (fun q =>
          decide (toCell q.y cs ∈ (intRangeIncl (-rng) rng).map
            (fun d => cy + d)) &&
          (decide (toCell q.x cs ∈ (intRangeIncl (-rng) rng).map
            (fun d => cx + d)) && P q)) := by
    simpa [Function.comp] using hpart2
  rw [outer]
  apply List.countP_congr
  intro q hq
  by_cases hPq : P q = true
  · have hb := hP q hq hPq
    have hx : toCell q.x cs ∈ (intRangeIncl (-rng) rng).map
        (fun d => cx + d) :=
      mem_map_add.mpr ⟨by omega, by omega⟩
    have hy : toCell q.y cs ∈ (intRangeIncl (-rng) rng).map
        (fun d => cy + d) :=
      mem_map_add.mpr ⟨by omega, by omega⟩
    simp [hPq, hx, hy]
  · rw [Bool.not_eq_true] at hPq
    simp [hPq]

/-- The grid-window count of `computeNeighborCounts` equals the brute-force
count: the scanned window covers every point within the radius, each exactly
once. -/
lemma gridCountAt_eq_brute (points : List SpawnXYZ) (radius : ℚ)
    (hr : 0 < radius) (p : SpawnXYZ) :
    gridCountAt (buildSpatialIndex points radius (fun q => ⟨q.x, q.y⟩))
      ⌈radius /
        (buildSpatialIndex points radius (fun q => ⟨q.x, q.y⟩)).cellSize⌉
      (radius * radius) p
      = bruteForceNeighborCount points p radius := by
  have hcs : (0 : ℚ) < max (1 / 1000000) radius :=
    lt_of_lt_of_le (by norm_num) (le_max_left _ _)
  have hsize : (buildSpatialIndex points radius
      (fun q : SpawnXYZ => XY.mk q.x q.y)).cellSize
      = max (1 / 1000000) radius := rfl
  unfold gridCountAt
  rw [hsize]
  have hbucket : ∀ k : CellKey,
      bucketGetD (buildSpatialIndex points radius
        (fun q : SpawnXYZ => XY.mk q.x q.y)).cells k
      = points.filter (fun it =>
          decide ((toCell it.x (max (1 / 1000000) radius),
            toCell it.y (max (1 / 1000000) radius)) = k)) := by
    intro k
    rw [bucketGetD_buildSpatialIndex]
  simp only [hbucket, List.filter_filter, ← List.countP_eq_length_filter]
  have hshape : ∀ dy dx : ℤ,
      points.countP (fun a =>
        decide ((a.x - p.x) * (a.x - p.x) + (a.y - p.y) * (a.y - p.y) ≤
          radius * radius) &&
        decide ((toCell a.x (max (1 / 1000000) radius),
          toCell a.y (max (1 / 1000000) radius)) =
          (toCell p.x (max (1 / 1000000) radius) + dx,
            toCell p.y (max (1 / 1000000) radius) + dy)))
      = points.countP (fun a =>
          decide (toCell a.x (max (1 / 1000000) radius) =
            toCell p.x (max (1 / 1000000) radius) + dx) &&
          (decide (toCell a.y (max (1 / 1000000) radius) =
            toCell p.y (max (1 / 1000000) radius) + dy) &&
          decide ((a.x - p.x) * (a.x - p.x) + (a.y - p.y) * (a.y - p.y) ≤
            radius * radius))) := by
    intro dy dx
    apply List.countP_congr
    intro q _
    simp only [Bool.and_eq_true, decide_eq_true_eq, Prod.mk.injEq]
    tauto
  simp only [hshape]
  rw [window_sum_count points (max (1 / 1000000) radius)
    (fun a => decide ((a.x - p.x) * (a.x - p.x) + (a.y - p.y) * (a.y - p.y) ≤
      radius * radius))
    (toCell p.x (max (1 / 1000000) radius))
    (toCell p.y (max (1 / 1000000) radius))
    ⌈radius / max (1 / 1000000) radius⌉ ?hcover]
  case hcover =>
    intro q _ hq
    rw [decide_eq_true_eq] at hq
    have hx : |q.x - p.x| ≤ radius := abs_le_of_d2_le hr.le hq
    have hy : |q.y - p.y| ≤ radius :=
      @abs_le_of_d2_le (q.y - p.y) (q.x - p.x) radius hr.le (by linarith)
    have hwx := toCell_window hcs hx
    have hwy := toCell_window hcs hy
    exact ⟨⟨by omega, by omega⟩, ⟨by omega, by omega⟩⟩
  rw [List.countP_eq_length_filter]
  unfold bruteForceNeighborCount
  apply congrArg List.length
  apply List.filter_congr
  intro q _
  rw [decide_eq_decide]
  constructor
  · intro h
    simpa [dist2, SpawnXYZ.toXY] using h
  · intro h
    simpa [dist2, SpawnXYZ.toXY] using h

/-! ### Claim theorems for the density classifier -/

/-- Claim C1: for every list of points with unique ids and every radius > 0,
`computeNeighborCounts` maps each point's id to exactly the number of points of
the list (the point itself included) whose planar squared distance to it is at
most `radius²` — the grid-accelerated result equals the brute-force count. -/
theorem computeNeighborCounts_grid_matches_bruteforce
    (points : List SpawnXYZ) (radius : ℚ) (hr : 0 < radius)
    (hnd : (points.map (·.id)).Nodup) (p : SpawnXYZ) (hp : p ∈ points) :
    countGet (computeNeighborCounts points radius) p.id
      = some (bruteForceNeighborCount points p radius) := by
  have hne : ¬ points.length = 0 := by
    rw [List.length_eq_zero]
    exact List.ne_nil_of_mem hp
  unfold computeNeighborCounts
  rw [if_neg hne, if_neg (not_not_intro hr)]
  exact (countGet_foldl_countSet (fun q =>
    gridCountAt (buildSpatialIndex points radius (fun q => ⟨q.x, q.y⟩))
      ⌈radius /
        (buildSpatialIndex points radius (fun q => ⟨q.x, q.y⟩)).cellSize⌉
      (radius * radius) q) points [] p hnd hp).trans
    (congrArg some (gridCountAt_eq_brute points radius hr p))

/-- Witness for C1: a concrete two-point instance where the grid count equals
the brute-force count. -/
theorem computeNeighborCounts_grid_matches_bruteforce_witness :
    countGet (computeNeighborCounts [⟨1, 0, 0, 0⟩, ⟨2, 1, 0, 0⟩] 2) 1
      = some (bruteForceNeighborCount [⟨1, 0, 0, 0⟩, ⟨2, 1, 0, 0⟩]
          ⟨1, 0, 0, 0⟩ 2) :=
  computeNeighborCounts_grid_matches_bruteforce
    [⟨1, 0, 0, 0⟩, ⟨2, 1, 0, 0⟩] 2 (by norm_num) (by decide)
    ⟨1, 0, 0, 0⟩ (by simp)

/-- Claim C7: for every list of points with unique ids and every radius ≤ 0,
`computeNeighborCounts` maps every input id to count 1 and holds no other
keys. -/
theorem computeNeighborCounts_nonpositive_radius
    (points : List SpawnXYZ) (radius : ℚ) (hr : radius ≤ 0)
    (hnd : (points.map (·.id)).Nodup) (i : ℤ) :
    countGet (computeNeighborCounts points radius) i
      = if i ∈ points.map (·.id) then some 1 else none := by
  unfold computeNeighborCounts
  by_cases hne : points.length = 0
  · rw [if_pos hne]
    have hnil : points = [] := List.length_eq_zero.mp hne
    subst hnil
    simp [countGet, List.find?]
  · rw [if_neg hne, if_pos (not_lt.mpr hr)]
    by_cases hi : i ∈ points.map (·.id)
    · rw [if_pos hi]
      exact countGet_foldl_countSet_const 1 points [] i hi
    · rw [if_neg hi]
      exact (countGet_foldl_countSet_not_mem (fun _ => 1) points [] i
        hi).trans rfl

/-- Witness for C7: a concrete instance at non-positive radius, one id mapped
to 1 and a foreign id absent. -/
theorem computeNeighborCounts_nonpositive_radius_witness :
    countGet (computeNeighborCounts [⟨1, 0, 0, 0⟩, ⟨2, 5, 5, 0⟩] (-1)) 2
        = some 1 ∧
      countGet (computeNeighborCounts [⟨1, 0, 0, 0⟩, ⟨2, 5, 5, 0⟩] (-1)) 3
        = none := by
  constructor
  · exact (computeNeighborCounts_nonpositive_radius
      [⟨1, 0, 0, 0⟩, ⟨2, 5, 5, 0⟩] (-1) (by norm_num) (by decide) 2).trans
      (by decide)
  · exact (computeNeighborCounts_nonpositive_radius
      [⟨1, 0, 0, 0⟩, ⟨2, 5, 5, 0⟩] (-1) (by norm_num) (by decide) 3).trans
      (by decide)

/-! ### Segment avoidance: geometry and the scan window -/

lemma convex_between {u v t : ℚ} (h0 : 0 ≤ t) (h1 : t ≤ 1) :
    min u v ≤ u + t * (v - u) ∧ u + t * (v - u) ≤ max u v := by
  constructor
  · rcases le_total u v with h | h
    · rw [min_eq_left h]; nlinarith
    · rw [min_eq_right h]; nlinarith
  · rcases le_total u v with h | h
    · rw [max_eq_right h]; nlinarith
    · rw [max_eq_left h]; nlinarith

/-- A point within `r` of the segment (by the source's squared segment
distance) has coordinates inside the segment's bounding box expanded by
`r`. -/
lemma seg_coord_bounds {p a b : XY} {r : ℚ} (hr : 0 < r)
    (h : dist2PointToSegment p a b ≤ r * r) :
    min a.x b.x - r ≤ p.x ∧ p.x ≤ max a.x b.x + r ∧
    min a.y b.y - r ≤ p.y ∧ p.y ≤ max a.y b.y + r := by
  simp only [dist2PointToSegment] at h
  by_cases hd : (b.x - a.x) * (b.x - a.x) + (b.y - a.y) * (b.y - a.y) <
      1 / 1000000000000
  · rw [if_pos hd] at h
    have hx := abs_le.mp (abs_le_of_d2_le hr.le h)
    have hy := abs_le.mp
      (@abs_le_of_d2_le (p.y - a.y) (p.x - a.x) r hr.le (by linarith))
    have h1 := min_le_left a.x b.x
    have h2 := le_max_left a.x b.x
    have h3 := min_le_left a.y b.y
    have h4 := le_max_left a.y b.y
    exact ⟨by linarith, by linarith, by linarith, by linarith⟩
  · rw [if_neg hd] at h
    set t := max 0 (min 1 (((p.x - a.x) * (b.x - a.x) +
      (p.y - a.y) * (b.y - a.y)) /
      ((b.x - a.x) * (b.x - a.x) + (b.y - a.y) * (b.y - a.y)))) with htdef
    have ht0 : 0 ≤ t := le_max_left 0 _
    have ht1 : t ≤ 1 := max_le (by norm_num) (min_le_left 1 _)
    have hcx := convex_between (u := a.x) (v := b.x) ht0 ht1
    have hcy := convex_between (u := a.y) (v := b.y) ht0 ht1
    have hx := abs_le.mp (abs_le_of_d2_le hr.le h)
    have hy := abs_le.mp (@abs_le_of_d2_le
      (p.y - (a.y + t * (b.y - a.y))) (p.x - (a.x + t * (b.x - a.x))) r
      hr.le (by linarith))
    exact ⟨by linarith [hcx.1], by linarith [hcx.2],
      by linarith [hcy.1], by linarith [hcy.2]⟩

/-- The squared segment distance of the exact midpoint is zero whenever the
segment is long enough to escape the degenerate-segment guard. -/
lemma dist2PointToSegment_midpoint (a b : XY)
    (hlen : 1 / 1000000000000 ≤
      (b.x - a.x) * (b.x - a.x) + (b.y - a.y) * (b.y - a.y)) :
    dist2PointToSegment ⟨(a.x + b.x) / 2, (a.y + b.y) / 2⟩ a b = 0 := by
  have hne : (b.x - a.x) * (b.x - a.x) + (b.y - a.y) * (b.y - a.y) ≠ 0 := by
    intro hzero
    rw [hzero] at hlen
    norm_num at hlen
  simp only [dist2PointToSegment]
  rw [if_neg (not_lt.mpr hlen)]
  have hnum : ((a.x + b.x) / 2 - a.x) * (b.x - a.x) +
      ((a.y + b.y) / 2 - a.y) * (b.y - a.y)
      = ((b.x - a.x) * (b.x - a.x) + (b.y - a.y) * (b.y - a.y)) / 2 := by
    ring
  rw [hnum]
  have ht : ((b.x - a.x) * (b.x - a.x) + (b.y - a.y) * (b.y - a.y)) / 2 /
      ((b.x - a.x) * (b.x - a.x) + (b.y - a.y) * (b.y - a.y)) = 1 / 2 := by
    field_simp
    ring
  rw [ht]
  norm_num
  ring

/-- The bounding-box cell scan of `segmentAvoidsDense` over a built index
passes exactly when no indexed point is within `avoidRadius` of the
segment. -/
lemma segmentAvoidsDense_built_iff (a b : XY) (densePts : List SpawnXYZ)
    (cellSize avoidRadius : ℚ) (hr : 0 < avoidRadius) :
    (segmentAvoidsDense a b
      (some (buildSpatialIndex densePts cellSize SpawnXYZ.toXY))
      avoidRadius = true)
    ↔ ∀ p ∈ densePts,
        ¬ dist2PointToSegment p.toXY a b ≤ avoidRadius * avoidRadius := by
  have hcs : (0 : ℚ) < max (1 / 1000000) cellSize :=
    lt_of_lt_of_le (by norm_num) (le_max_left _ _)
  have hsize : (buildSpatialIndex densePts cellSize SpawnXYZ.toXY).cellSize
      = max (1 / 1000000) cellSize := rfl
  simp only [segmentAvoidsDense]
  rw [if_neg (not_not_intro hr)]
  by_cases hnil : densePts = []
  · subst hnil
    have hc : (buildSpatialIndex ([] : List SpawnXYZ) cellSize
        SpawnXYZ.toXY).cells = [] := rfl
    rw [hc]
    simp
  · have hc : ¬ (buildSpatialIndex densePts cellSize
        SpawnXYZ.toXY).cells.length = 0 := by
      rw [List.length_eq_zero]
      exact buildSpatialIndex_cells_ne_nil densePts cellSize SpawnXYZ.toXY hnil
    rw [if_neg hc, hsize]
    simp only [List.all_eq_true, Bool.not_eq_true', decide_eq_false_iff_not]
    constructor
    · intro hall p hp hle
      obtain ⟨hx1, hx2, hy1, hy2⟩ :=
        seg_coord_bounds (p := p.toXY) hr hle
      have hpx : p.toXY.x = p.x := rfl
      have hpy : p.toXY.y = p.y := rfl
      rw [hpx] at hx1 hx2
      rw [hpy] at hy1 hy2
      have hcy : toCell p.y (max (1 / 1000000) cellSize) ∈
          intRangeIncl
            (toCell (min a.y b.y - avoidRadius) (max (1 / 1000000) cellSize))
            (toCell (max a.y b.y + avoidRadius) (max (1 / 1000000) cellSize)) :=
        mem_intRangeIncl.mpr ⟨toCell_mono hcs hy1, toCell_mono hcs hy2⟩
      have hcx : toCell p.x (max (1 / 1000000) cellSize) ∈
          intRangeIncl
            (toCell (min a.x b.x - avoidRadius) (max (1 / 1000000) cellSize))
            (toCell (max a.x b.x + avoidRadius) (max (1 / 1000000) cellSize)) :=
        mem_intRangeIncl.mpr ⟨toCell_mono hcs hx1, toCell_mono hcs hx2⟩
      have hbucket : p ∈ bucketGetD
          (buildSpatialIndex densePts cellSize SpawnXYZ.toXY).cells
          (toCell p.x (max (1 / 1000000) cellSize),
            toCell p.y (max (1 / 1000000) cellSize)) := by
        rw [bucketGetD_buildSpatialIndex, List.mem_filter]
        exact ⟨hp, by simp [SpawnXYZ.toXY]⟩
      exact (hall _ hcy _ hcx p hbucket) hle
    · intro hnone cy hcy cx hcx dense hdense
      have hmem : dense ∈ densePts := by
        rw [bucketGetD_buildSpatialIndex] at hdense
        exact (List.mem_filter.mp hdense).1
      exact hnone dense hmem

/-- Claim C4 (amended): `segmentAvoidsDense` passes when the index is absent,
the radius non-positive, or the cell map empty; for a positive radius it
passes iff no indexed point has squared segment distance (per the source's
`dist2PointToSegment`) at most `avoidRadius²`; and an indexed point exactly at
the midpoint of a segment whose squared length is at least `1e-12` (so the
degenerate-segment guard does not fire) forces a fail. -/
theorem segmentAvoidsDense_spec (a b : XY) (densePts : List SpawnXYZ)
    (idx : SpatialIndex SpawnXYZ) (cellSize avoidRadius : ℚ) :
    segmentAvoidsDense a b none avoidRadius = true ∧
    (avoidRadius ≤ 0 → segmentAvoidsDense a b (some idx) avoidRadius = true) ∧
    (idx.cells = [] → segmentAvoidsDense a b (some idx) avoidRadius = true) ∧
    (0 < avoidRadius →
      (segmentAvoidsDense a b
          (some (buildSpatialIndex densePts cellSize SpawnXYZ.toXY))
          avoidRadius = true ↔
        ∀ p ∈ densePts,
          ¬ dist2PointToSegment p.toXY a b ≤ avoidRadius * avoidRadius)) ∧
    (0 < avoidRadius → 1 / 1000000000000 ≤ dist2 a b →
      ∀ p ∈ densePts, p.x = (a.x + b.x) / 2 → p.y = (a.y + b.y) / 2 →
      segmentAvoidsDense a b
        (some (buildSpatialIndex densePts cellSize SpawnXYZ.toXY))
        avoidRadius = false) := by
  refine ⟨rfl, ?_, ?_, ?_, ?_⟩
  · intro hr
    simp only [segmentAvoidsDense]
    rw [if_pos (not_lt.mpr hr)]
  · intro hcells
    simp only [segmentAvoidsDense]
    by_cases hr : avoidRadius > 0
    · rw [if_neg (not_not_intro hr), if_pos (by simp [hcells])]
    · rw [if_pos hr]
  · intro hr
    exact segmentAvoidsDense_built_iff a b densePts cellSize avoidRadius hr
  · intro hr hlen p hp hpx hpy
    have habl : dist2 a b
        = (b.x - a.x) * (b.x - a.x) + (b.y - a.y) * (b.y - a.y) := by
      unfold dist2; ring
    have hmid : dist2PointToSegment p.toXY a b = 0 := by
      have hpeq : p.toXY = ⟨(a.x + b.x) / 2, (a.y + b.y) / 2⟩ := by
        unfold SpawnXYZ.toXY
        rw [hpx, hpy]
      rw [hpeq]
      exact dist2PointToSegment_midpoint a b (habl ▸ hlen)
    have hiff :=
      segmentAvoidsDense_built_iff a b densePts cellSize avoidRadius hr
    rw [Bool.eq_false_iff]
    intro htrue
    exact (hiff.mp htrue p hp) (by rw [hmid]; exact mul_nonneg hr.le hr.le)

/-- Witness for C4: a dense point at the midpoint of the (non-degenerate)
segment `(0,0)→(10,0)` with radius 2 obstructs it. -/
theorem segmentAvoidsDense_spec_witness :
    segmentAvoidsDense ⟨0, 0⟩ ⟨10, 0⟩
      (some (buildSpatialIndex [⟨8, 5, 0, 0⟩] 2 SpawnXYZ.toXY)) 2 = false :=
  (segmentAvoidsDense_spec ⟨0, 0⟩ ⟨10, 0⟩ [⟨8, 5, 0, 0⟩] ⟨2, []⟩ 2 2).2.2.2.2
    (by norm_num) (by norm_num [dist2]) ⟨8, 5, 0, 0⟩ (by simp)
    (by norm_num) (by norm_num)

/-- Counterexample to C4 as stated: for the segment `(0,0)→(1e-7,0)` (squared
length `1e-14`, below the `1e-12` degenerate-segment guard) and radius
`1e-9 > 0`, a dense point exactly at the segment's midpoint does NOT make
`segmentAvoidsDense` return false — the guard measures the distance to the
endpoint `a` instead, which exceeds the radius. -/
theorem segmentAvoidsDense_midpoint_counterexample :
    (0 : ℚ) < 1 / 1000000000 ∧
    (1 / 20000000 : ℚ) = (0 + 1 / 10000000) / 2 ∧
    segmentAvoidsDense ⟨0, 0⟩ ⟨1 / 10000000, 0⟩
      (some (buildSpatialIndex [⟨7, 1 / 20000000, 0, 0⟩] (1 / 1000000000)
        SpawnXYZ.toXY)) (1 / 1000000000) = true :=
  ⟨by norm_num, by norm_num, by with_unfolding_all decide⟩

/-! ### Route-builder invariants -/

/-- A grid query over a built index only returns indexed items. -/
lemma mem_queryPointsWithin_build (items : List SpawnXYZ) (cs : ℚ)
    (center : XY) (radius : ℚ) (q : SpawnXYZ)
    (hq : q ∈ queryPointsWithin (buildSpatialIndex items cs SpawnXYZ.toXY)
      center radius) : q ∈ items := by
  simp only [queryPointsWithin] at hq
  split_ifs at hq with h1 h2
  all_goals try exact absurd hq (List.not_mem_nil q)
  simp at hq
  obtain ⟨dy, _, dx, _, hb, _⟩ := hq
  rw [bucketGetD_buildSpatialIndex] at hb
  exact (List.mem_filter.mp hb).1

/-- The tie-break chain either installs the fresh candidate or keeps the
previous best. -/
lemma pickBetter_cases (st : Option Choice) (cand : Choice) :
    pickBetter st cand = some cand ∨ pickBetter st cand = st := by
  cases st with
  | none => left; rfl
  | some b =>
      simp only [pickBetter]
      split_ifs <;> simp

/-- Any choice produced by the candidate loop survived its guards: it comes
from the scanned pool, is unvisited, and respects the step bound. -/
lemma foldl_considerCandidate_good (ctx : RouteCtx) (current : SpawnXYZ)
    (visited : List ℤ) (S : List SpawnXYZ) :
    ∀ (l : List SpawnXYZ), (∀ x ∈ l, x ∈ S) →
    ∀ (st : Option Choice),
      (∀ c0, st = some c0 → c0.point ∈ S ∧ c0.point.id ∉ visited ∧
        gtD (dist2 current.toXY c0.point.toXY)
          (maxStep2Of ctx.maxStep) = false) →
    ∀ c, l.foldl (considerCandidate ctx current visited) st = some c →
      c.point ∈ S ∧ c.point.id ∉ visited ∧
        gtD (dist2 current.toXY c.point.toXY)
          (maxStep2Of ctx.maxStep) = false
  | [], _, st, hst, c, hfold => hst c hfold
  | x :: l, hl, st, hst, c, hfold => by
      rw [List.foldl_cons] at hfold
      refine foldl_considerCandidate_good ctx current visited S l
        (fun y hy => hl y (List.mem_cons_of_mem x hy)) _ ?_ c hfold
      intro c0 hc0
      simp only [considerCandidate] at hc0
      split_ifs at hc0 with hid hvis hstep havoid <;>
        try exact hst c0 hc0
      have hxS : x ∈ S := hl x (List.mem_cons_self x l)
      have hxv : x.id ∉ visited := by
        intro hmem
        exact hvis (by simpa using hmem)
      have hxstep : gtD (dist2 current.toXY x.toXY)
          (maxStep2Of ctx.maxStep) = false := by
        rw [Bool.eq_false_iff]
        exact hstep
      rcases pickBetter_cases st
          ⟨x, degreeAt ctx visited x, localDegOf ctx x,
            dist2 current.toXY x.toXY, dist2 ctx.center x.toXY⟩
        with hpb | hpb
      · rw [hpb] at hc0
        injection hc0 with h
        subst h
        exact ⟨hxS, hxv, hxstep⟩
      · rw [hpb] at hc0
        exact hst c0 hc0

/-- Invariants of the greedy walk loop: ids stay distinct, points stay safe,
the length respects the fuel, and consecutive steps respect the step bound. -/
lemma buildGreedyPathLoop_props (ctx : RouteCtx)
    (hctx : ∀ cur : SpawnXYZ, ∀ q ∈ candidatesAt ctx cur, q ∈ ctx.safeInArea) :
    ∀ (fuel : ℕ) (route : List SpawnXYZ) (current : SpawnXYZ)
      (visited : List ℤ),
      (route.map (·.id)).Nodup →
      (∀ i ∈ route.map (·.id), i ∈ visited) →
      (∀ p ∈ route, p ∈ ctx.safeInArea) →
      route.getLast? = some current →
      List.Chain' (fun p q => gtD (dist2 p.toXY q.toXY)
        (maxStep2Of ctx.maxStep) = false) route →
      ((buildGreedyPathLoop ctx fuel route current visited).map
        (·.id)).Nodup ∧
      (∀ p ∈ buildGreedyPathLoop ctx fuel route current visited,
        p ∈ ctx.safeInArea) ∧
      (buildGreedyPathLoop ctx fuel route current visited).length ≤
        route.length + fuel ∧
      List.Chain' (fun p q => gtD (dist2 p.toXY q.toXY)
        (maxStep2Of ctx.maxStep) = false)
        (buildGreedyPathLoop ctx fuel route current visited) := by
  intro fuel
  induction fuel with
  | zero =>
      intro route current visited h1 h2 h3 _ h5
      exact ⟨h1, h3, le_refl _, h5⟩
  | succ n ih =>
      intro route current visited h1 h2 h3 h4 h5
      rw [show buildGreedyPathLoop ctx (n + 1) route current visited =
        (match (candidatesAt ctx current).foldl
            (considerCandidate ctx current visited) none with
          | none => route
          | some c => buildGreedyPathLoop ctx n (route ++ [c.point]) c.point
              (c.point.id :: visited)) from rfl]
      cases hfold : (candidatesAt ctx current).foldl
          (considerCandidate ctx current visited) none with
      | none =>
          refine ⟨h1, h3, ?_, h5⟩
          simp
      | some c =>
          have hgood := foldl_considerCandidate_good ctx current visited
            ctx.safeInArea (candidatesAt ctx current) (hctx current) none
            (by intro c0 h; cases h) c hfold
          have hnotin : c.point.id ∉ route.map (·.id) := fun hmem =>
            hgood.2.1 (h2 _ hmem)
          have h1' : ((route ++ [c.point]).map (·.id)).Nodup := by
            rw [List.map_append, List.nodup_append]
            refine ⟨h1, List.nodup_singleton _, ?_⟩
            intro i hi hi2
            simp at hi2
            exact hnotin (hi2 ▸ hi)
          have h2' : ∀ i ∈ (route ++ [c.point]).map (·.id),
              i ∈ c.point.id :: visited := by
            intro i hi
            rw [List.map_append, List.mem_append] at hi
            rcases hi with hi | hi
            · exact List.mem_cons_of_mem _ (h2 i hi)
            · simp at hi
              simp [hi]
          have h3' : ∀ p ∈ route ++ [c.point], p ∈ ctx.safeInArea := by
            intro p hp
            rw [List.mem_append] at hp
            rcases hp with hp | hp
            · exact h3 p hp
            · simp at hp
              exact hp ▸ hgood.1
          have h4' : (route ++ [c.point]).getLast? = some c.point :=
            List.getLast?_concat route
          have h5' : List.Chain' (fun p q => gtD (dist2 p.toXY q.toXY)
              (maxStep2Of ctx.maxStep) = false) (route ++ [c.point]) := by
            rw [List.chain'_append]
            refine ⟨h5, List.chain'_singleton _, ?_⟩
            intro x hx y hy
            rw [h4, Option.mem_some_iff] at hx
            rw [show ([c.point] : List SpawnXYZ).head? = some c.point from rfl,
              Option.mem_some_iff] at hy
            subst hx
            subst hy
            exact hgood.2.2
          have hrec := ih (route ++ [c.point]) c.point (c.point.id :: visited)
            h1' h2' h3' h4' h5'
          refine ⟨hrec.1, hrec.2.1, ?_, hrec.2.2.2⟩
          show (buildGreedyPathLoop ctx n (route ++ [c.point]) c.point
            (c.point.id :: visited)).length ≤ route.length + (n + 1)
          have hlen := hrec.2.2.1
          rw [List.length_append] at hlen
          simp at hlen
          omega

/-- Properties of one greedy walk from a safe start. -/
lemma buildGreedyPath_props (ctx : RouteCtx)
    (hctx : ∀ cur : SpawnXYZ, ∀ q ∈ candidatesAt ctx cur, q ∈ ctx.safeInArea)
    (start : SpawnXYZ) (hstart : start ∈ ctx.safeInArea)
    (hmw : 1 ≤ ctx.maxWaypoints) :
    ((buildGreedyPath ctx start).map (·.id)).Nodup ∧
    (∀ p ∈ buildGreedyPath ctx start, p ∈ ctx.safeInArea) ∧
    (buildGreedyPath ctx start).length ≤ ctx.maxWaypoints ∧
    List.Chain' (fun p q => gtD (dist2 p.toXY q.toXY)
      (maxStep2Of ctx.maxStep) = false) (buildGreedyPath ctx start) := by
  have h := buildGreedyPathLoop_props ctx hctx (ctx.maxWaypoints - 1)
    [start] start [start.id] (by simp) (by simp)
    (by intro p hp; simp at hp; exact hp ▸ hstart)
    rfl (List.chain'_singleton _)
  refine ⟨h.1, h.2.1, ?_, h.2.2.2⟩
  have hlen := h.2.2.1
  simp at hlen
  unfold buildGreedyPath
  omega

/-- The `closestToCenter` fold only returns a scanned point. -/
lemma closestToCenterOf_mem (ctx : RouteCtx) (c : SpawnXYZ)
    (h : closestToCenterOf ctx = some c) : c ∈ ctx.safeInArea := by
  unfold closestToCenterOf at h
  obtain ⟨pr, hpr, hpr1⟩ := Option.map_eq_some'.mp h
  suffices hs : ∀ (l : List SpawnXYZ) (st : Option (SpawnXYZ × ℚ)),
      (∀ x ∈ l, x ∈ ctx.safeInArea) →
      (∀ pr0, st = some pr0 → pr0.1 ∈ ctx.safeInArea) →
      ∀ pr0, l.foldl (fun st p =>
        match st with
        | none => some (p, dist2 ctx.center p.toXY)
        | some (_, bestD2) =>
            if dist2 ctx.center p.toXY < bestD2 then
              some (p, dist2 ctx.center p.toXY)
            else st) st = some pr0 → pr0.1 ∈ ctx.safeInArea by
    exact hpr1 ▸ hs ctx.safeInArea none (fun x hx => hx)
      (by intro pr0 h0; cases h0) pr hpr
  intro l
  induction l with
  | nil => intro st _ hst pr0 h0; exact hst pr0 h0
  | cons x l ih =>
      intro st hl hst pr0 h0
      rw [List.foldl_cons] at h0
      refine ih _ (fun y hy => hl y (List.mem_cons_of_mem x hy)) ?_ pr0 h0
      intro pr1 hpr1'
      have hxS : x ∈ ctx.safeInArea := hl x (List.mem_cons_self x l)
      cases st with
      | none =>
          injection hpr1' with h2
          subst h2
          exact hxS
      | some b =>
          obtain ⟨b1, b2⟩ := b
          simp only at hpr1'
          split_ifs at hpr1' with hlt
          · injection hpr1' with h2
            subst h2
            exact hxS
          · exact hst pr1 hpr1'

/-- Every start candidate is a safe in-area point. -/
lemma startCandidatesOf_subset (ctx : RouteCtx) :
    ∀ p ∈ startCandidatesOf ctx, p ∈ ctx.safeInArea := by
  intro p hp
  simp only [startCandidatesOf] at hp
  have hbase : ∀ q ∈ ((scoredStartsOf ctx).take 12).map (·.point),
      q ∈ ctx.safeInArea := by
    intro q hq
    rw [List.mem_map] at hq
    obtain ⟨ss, hss, hq⟩ := hq
    have hmem : ss ∈ scoredStartsOf ctx := List.mem_of_mem_take hss
    unfold scoredStartsOf at hmem
    rw [List.mem_mergeSort, List.mem_map] at hmem
    obtain ⟨q0, hq0, hssq⟩ := hmem
    rw [← hq, ← hssq]
    exact hq0
  cases hcc : closestToCenterOf ctx with
  | none =>
      rw [hcc] at hp
      exact hbase p hp
  | some cc =>
      rw [hcc] at hp
      dsimp only at hp
      split_ifs at hp with hin
      · exact hbase p hp
      · rw [List.mem_append] at hp
        rcases hp with hp | hp
        · exact hbase p hp
        · simp at hp
          exact hp ▸ closestToCenterOf_mem ctx cc hcc

/-- When the safe index is the one built by `generateAutoRoute`, candidate
pools only contain safe points. -/
lemma candidatesAt_subset_of_built (ctx : RouteCtx)
    (h : ctx.safeIndex = safeIndexOf ctx.safeInArea ctx.maxStep) :
    ∀ cur : SpawnXYZ, ∀ q ∈ candidatesAt ctx cur, q ∈ ctx.safeInArea := by
  intro cur q hq
  unfold candidatesAt at hq
  by_cases hms : ctx.maxStep > 0
  · rw [h] at hq
    unfold safeIndexOf at hq
    rw [if_pos hms] at hq
    have hq2 : q ∈ (if ctx.maxStep > 0 ∧ (maxStep2Of ctx.maxStep).isSome then
        queryPointsWithin
          (buildSpatialIndex ctx.safeInArea ctx.maxStep SpawnXYZ.toXY)
          cur.toXY ctx.maxStep
      else ctx.safeInArea) := hq
    split_ifs at hq2 with hcond
    · exact mem_queryPointsWithin_build _ _ _ _ q hq2
    · exact hq2
  · rw [h] at hq
    unfold safeIndexOf at hq
    rw [if_neg hms] at hq
    exact hq

/-- The multi-start selection returns the greedy walk of one of the explored
starts. -/
lemma pickBestRoute_eq (ctx : RouteCtx) (start0 : SpawnXYZ)
    (rest : List SpawnXYZ) :
    ∃ s, (s = start0 ∨ s ∈ rest) ∧
      pickBestRoute ctx start0 rest = buildGreedyPath ctx s := by
  unfold pickBestRoute
  suffices hs : ∀ (l : List SpawnXYZ) (acc : List SpawnXYZ × ℚ),
      (∃ s, (s = start0 ∨ s ∈ rest) ∧ acc.1 = buildGreedyPath ctx s) →
      (∀ x ∈ l, x ∈ rest) →
      ∃ s, (s = start0 ∨ s ∈ rest) ∧
        (l.foldl (fun best start =>
          let route := buildGreedyPath ctx start
          if route.length > best.1.length then (route, routeCost route)
          else if route.length = best.1.length then
            let cost := routeCost route
            if cost < best.2 then (route, cost) else best
          else best) acc).1 = buildGreedyPath ctx s by
    exact hs rest
      (buildGreedyPath ctx start0, routeCost (buildGreedyPath ctx start0))
      ⟨start0, Or.inl rfl, rfl⟩ (fun x hx => hx)
  intro l
  induction l with
  | nil =>
      intro acc hacc _
      exact hacc
  | cons x l ih =>
      intro acc hacc hl
      rw [List.foldl_cons]
      refine ih _ ?_ (fun y hy => hl y (List.mem_cons_of_mem x hy))
      dsimp only
      split_ifs with hgt heq hcost
      · exact ⟨x, Or.inr (hl x (List.mem_cons_self x l)), rfl⟩
      · exact ⟨x, Or.inr (hl x (List.mem_cons_self x l)), rfl⟩
      · exact hacc
      · exact hacc

/-- Master property bundle of `generateAutoRoute`: distinct route ids, route
points drawn from the safe in-area pool, waypoint budget respected, step bound
respected, fully populated stats, and an empty route on a degenerate budget or
safe pool. -/
lemma generateAutoRoute_props (points : List SpawnXYZ) (denseIds : List ℤ)
    (settings : AutoRouteSettings) :
    (((generateAutoRoute points denseIds settings).route.map (·.id)).Nodup) ∧
    (∀ p ∈ (generateAutoRoute points denseIds settings).route,
      p ∈ (inAreaOf points settings).filter
        (fun p => ! denseIds.contains p.id)) ∧
    ((generateAutoRoute points denseIds settings).route.length ≤
      capWaypoints settings.maxWaypoints) ∧
    (List.Chain' (fun p q => gtD (dist2 p.toXY q.toXY)
      (maxStep2Of settings.maxStepDistance) = false)
      (generateAutoRoute points denseIds settings).route) ∧
    ((generateAutoRoute points denseIds settings).stats =
      ⟨points.length, (inAreaOf points settings).length,
        ((inAreaOf points settings).filter
          (fun p => denseIds.contains p.id)).length,
        ((inAreaOf points settings).filter
          (fun p => ! denseIds.contains p.id)).length,
        (generateAutoRoute points denseIds settings).route.length⟩) ∧
    ((capWaypoints settings.maxWaypoints = 0 ∨
        (inAreaOf points settings).filter
          (fun p => ! denseIds.contains p.id) = []) →
      (generateAutoRoute points denseIds settings).route = []) := by
  by_cases hmw : capWaypoints settings.maxWaypoints = 0
  · have hres : generateAutoRoute points denseIds settings =
        ⟨[], ⟨points.length, (inAreaOf points settings).length,
          ((inAreaOf points settings).filter
            (fun p => denseIds.contains p.id)).length,
          ((inAreaOf points settings).filter
            (fun p => ! denseIds.contains p.id)).length, 0⟩⟩ := by
      simp only [generateAutoRoute]
      rw [if_pos hmw]
    rw [hres]
    exact ⟨by simp, by simp, by simp, List.chain'_nil, rfl, fun _ => rfl⟩
  · cases hsafe : (inAreaOf points settings).filter
        (fun p => ! denseIds.contains p.id) with
    | nil =>
        have hres : generateAutoRoute points denseIds settings =
            ⟨[], ⟨points.length, (inAreaOf points settings).length,
              ((inAreaOf points settings).filter
                (fun p => denseIds.contains p.id)).length,
              ((inAreaOf points settings).filter
                (fun p => ! denseIds.contains p.id)).length, 0⟩⟩ := by
          simp only [generateAutoRoute]
          rw [if_neg hmw, hsafe]
        rw [hres]
        exact ⟨by simp, by simp, by simp, List.chain'_nil,
          by rw [hsafe]; rfl, fun _ => rfl⟩
    | cons s0 rest0 =>
        have hmw1 : 1 ≤ capWaypoints settings.maxWaypoints :=
          Nat.one_le_iff_ne_zero.mpr hmw
        set ctx : RouteCtx :=
          { center := settings.center
            maxStep := settings.maxStepDistance
            avoidRadius := settings.avoidDenseTravelRadius
            safeInArea := s0 :: rest0
            safeIndex := safeIndexOf (s0 :: rest0) settings.maxStepDistance
            stepNeighborCounts :=
              stepCountsOf (s0 :: rest0) settings.maxStepDistance
            denseIndex := denseIndexOf points denseIds settings
            maxWaypoints := capWaypoints settings.maxWaypoints }
          with hctxdef
        set sc : List SpawnXYZ := startCandidatesOf ctx with hscdef
        set st0 : SpawnXYZ := sc.head?.getD s0 with hst0def
        have hres : generateAutoRoute points denseIds settings =
            ⟨pickBestRoute ctx st0 (sc.drop 1),
              ⟨points.length, (inAreaOf points settings).length,
                ((inAreaOf points settings).filter
                  (fun p => denseIds.contains p.id)).length,
                (s0 :: rest0).length,
                (pickBestRoute ctx st0 (sc.drop 1)).length⟩⟩ := by
          simp only [generateAutoRoute]
          rw [if_neg hmw, hsafe]
        have hctx : ∀ cur : SpawnXYZ, ∀ q ∈ candidatesAt ctx cur,
            q ∈ ctx.safeInArea :=
          candidatesAt_subset_of_built ctx rfl
        obtain ⟨s, hsor, hpick⟩ := pickBestRoute_eq ctx st0 (sc.drop 1)
        have hsmem : s ∈ ctx.safeInArea := by
          rcases hsor with rfl | hs
          · cases hsc : sc with
            | nil =>
                rw [hst0def, hsc]
                exact List.mem_cons_self s0 rest0
            | cons a tl =>
                have ha : a ∈ startCandidatesOf ctx := by
                  rw [← hscdef, hsc]
                  exact List.mem_cons_self a tl
                have hst0a : st0 = a := by
                  rw [hst0def, hsc]
                  rfl
                rw [hst0a]
                exact startCandidatesOf_subset ctx a ha
          · have hmem : s ∈ startCandidatesOf ctx := by
              rw [← hscdef]
              exact List.mem_of_mem_drop hs
            exact startCandidatesOf_subset ctx s hmem
        have hprops := buildGreedyPath_props ctx hctx s hsmem hmw1
        rw [hres, hpick]
        refine ⟨hprops.1, ?_, hprops.2.2.1, hprops.2.2.2, rfl, ?_⟩
        · intro p hp
          exact hprops.2.1 p hp
        · intro h
          rcases h with h | h
          · exact absurd h hmw
          · exact absurd h (List.cons_ne_nil s0 rest0)

/-! ### Claim theorems for the route builder and the tuner -/

/-- Claim C2: `generateAutoRoute` never returns duplicate ids, and the route
length is bounded by the floored waypoint budget and by the number of safe
in-area points. -/
theorem generateAutoRoute_route_invariants (points : List SpawnXYZ)
    (denseIds : List ℤ) (settings : AutoRouteSettings) :
    ((generateAutoRoute points denseIds settings).route.map (·.id)).Nodup ∧
    (generateAutoRoute points denseIds settings).route.length ≤
      capWaypoints settings.maxWaypoints ∧
    (generateAutoRoute points denseIds settings).route.length ≤
      (generateAutoRoute points denseIds settings).stats.safeInArea := by
  obtain ⟨h1, h2, h3, _, h5, _⟩ :=
    generateAutoRoute_props points denseIds settings
  refine ⟨h1, h3, ?_⟩
  have hsub : (generateAutoRoute points denseIds settings).route.map (·.id) ⊆
      ((inAreaOf points settings).filter
        (fun p => ! denseIds.contains p.id)).map (·.id) := by
    intro i hi
    rw [List.mem_map] at hi
    obtain ⟨p, hp, hpi⟩ := hi
    exact List.mem_map.mpr ⟨p, h2 p hp, hpi⟩
  have hlen := (h1.subperm hsub).length_le
  rw [List.length_map, List.length_map] at hlen
  rw [h5]
  exact hlen

/-- Claim C3: with a positive step bound, consecutive route points are within
`maxStepDistance` (squared comparison). -/
theorem generateAutoRoute_step_distance_bound (points : List SpawnXYZ)
    (denseIds : List ℤ) (settings : AutoRouteSettings)
    (hms : 0 < settings.maxStepDistance) :
    List.Chain' (fun p q => dist2 p.toXY q.toXY ≤
      settings.maxStepDistance * settings.maxStepDistance)
      (generateAutoRoute points denseIds settings).route := by
  have h4 := (generateAutoRoute_props points denseIds settings).2.2.2.1
  refine h4.imp ?_
  intro p q hpq
  have hsome : maxStep2Of settings.maxStepDistance =
      some (settings.maxStepDistance * settings.maxStepDistance) := by
    unfold maxStep2Of
    rw [if_pos hms]
  rw [hsome] at hpq
  simp only [gtD, decide_eq_false_iff_not, not_lt] at hpq
  exact hpq

/-- Witness for C3: the step bound holds for a concrete two-point route. -/
theorem generateAutoRoute_step_distance_bound_witness :
    List.Chain' (fun p q => dist2 p.toXY q.toXY ≤ (15 : ℚ) * 15)
      (generateAutoRoute [⟨1, 0, 0, 0⟩, ⟨2, 10, 0, 0⟩] []
        ⟨⟨0, 0⟩, 50, 15, 10, 0⟩).route :=
  generateAutoRoute_step_distance_bound [⟨1, 0, 0, 0⟩, ⟨2, 10, 0, 0⟩] []
    ⟨⟨0, 0⟩, 50, 15, 10, 0⟩ (by norm_num)

/-- Claim C5: a zero waypoint budget or an empty safe pool yields an empty
route with fully populated stats. -/
theorem generateAutoRoute_degenerate_empty_route (points : List SpawnXYZ)
    (denseIds : List ℤ) (settings : AutoRouteSettings)
    (h : capWaypoints settings.maxWaypoints = 0 ∨
      (inAreaOf points settings).filter
        (fun p => ! denseIds.contains p.id) = []) :
    (generateAutoRoute points denseIds settings).route = [] ∧
    (generateAutoRoute points denseIds settings).stats =
      ⟨points.length, (inAreaOf points settings).length,
        ((inAreaOf points settings).filter
          (fun p => denseIds.contains p.id)).length,
        ((inAreaOf points settings).filter
          (fun p => ! denseIds.contains p.id)).length, 0⟩ := by
  obtain ⟨_, _, _, _, h5, h6⟩ :=
    generateAutoRoute_props points denseIds settings
  have hroute := h6 h
  refine ⟨hroute, ?_⟩
  rw [h5, hroute]
  rfl

/-- Witness for C5: a zero budget gives an empty route. -/
theorem generateAutoRoute_degenerate_empty_route_witness :
    (generateAutoRoute [⟨1, 3, 4, 0⟩] [] ⟨⟨0, 0⟩, 10, 5, 0, 0⟩).route = [] :=
  (generateAutoRoute_degenerate_empty_route [⟨1, 3, 4, 0⟩] []
    ⟨⟨0, 0⟩, 10, 5, 0, 0⟩ (Or.inl (by simp [capWaypoints]))).1

/-- Claim C10: stats are consistent (`total`, `inArea = dense + safe`,
`picked = route.length`) and every routed point is an input point, not dense,
and inside the area when the area radius is bounded. -/
theorem generateAutoRoute_stats_and_route_provenance (points : List SpawnXYZ)
    (denseIds : List ℤ) (settings : AutoRouteSettings) :
    (generateAutoRoute points denseIds settings).stats.total =
      points.length ∧
    (generateAutoRoute points denseIds settings).stats.inArea =
      (generateAutoRoute points denseIds settings).stats.denseInArea +
        (generateAutoRoute points denseIds settings).stats.safeInArea ∧
    (generateAutoRoute points denseIds settings).stats.picked =
      (generateAutoRoute points denseIds settings).route.length ∧
    ∀ p ∈ (generateAutoRoute points denseIds settings).route,
      p ∈ points ∧ p.id ∉ denseIds ∧
        (0 < settings.maxAreaRadius →
          dist2 settings.center p.toXY ≤
            settings.maxAreaRadius * settings.maxAreaRadius) := by
  obtain ⟨_, h2, _, _, h5, _⟩ :=
    generateAutoRoute_props points denseIds settings
  refine ⟨by rw [h5], ?_, by rw [h5], ?_⟩
  · rw [h5]
    exact List.length_eq_length_filter_add
      (fun p : SpawnXYZ => denseIds.contains p.id)
  · intro p hp
    have hps := h2 p hp
    rw [List.mem_filter] at hps
    obtain ⟨hin, hnd⟩ := hps
    unfold inAreaOf at hin
    rw [List.mem_filter] at hin
    obtain ⟨hpts, harea⟩ := hin
    refine ⟨hpts, ?_, ?_⟩
    · intro hmem
      simp at hnd
      exact hnd hmem
    · intro hr
      have heq : maxAreaR2Of settings.maxAreaRadius =
          some (settings.maxAreaRadius * settings.maxAreaRadius) := by
        unfold maxAreaR2Of
        rw [if_pos hr]
      rw [heq] at harea
      simpa [leD] using harea

/-- Witness for C10: on a concrete input, the stats total matches and a routed
point satisfies the in-area bound. -/
theorem generateAutoRoute_stats_and_route_provenance_witness :
    (generateAutoRoute [⟨1, 0, 0, 0⟩, ⟨2, 10, 0, 0⟩] []
      ⟨⟨0, 0⟩, 50, 15, 10, 0⟩).stats.total = 2 ∧
    dist2 (⟨0, 0⟩ : XY) (SpawnXYZ.toXY ⟨1, 0, 0, 0⟩) ≤ (50 : ℚ) * 50 :=
  ⟨(generateAutoRoute_stats_and_route_provenance [⟨1, 0, 0, 0⟩, ⟨2, 10, 0, 0⟩]
      [] ⟨⟨0, 0⟩, 50, 15, 10, 0⟩).1,
    ((generateAutoRoute_stats_and_route_provenance [⟨1, 0, 0, 0⟩, ⟨2, 10, 0, 0⟩]
        [] ⟨⟨0, 0⟩, 50, 15, 10, 0⟩).2.2.2 ⟨1, 0, 0, 0⟩
      (by with_unfolding_all decide)).2.2 (by norm_num)⟩

/-- Claim C8: the four-point scenario produces the route
`(0,0),(10,0),(20,0)` in order with ids preserved, `inArea = 3`,
`picked = 3`. -/
theorem generateAutoRoute_four_point_scenario :
    generateAutoRoute [⟨1, 0, 0, 0⟩, ⟨2, 10, 0, 0⟩, ⟨3, 20, 0, 0⟩,
        ⟨4, 100, 100, 0⟩] [] ⟨⟨0, 0⟩, 50, 15, 10, 0⟩
      = ⟨[⟨1, 0, 0, 0⟩, ⟨2, 10, 0, 0⟩, ⟨3, 20, 0, 0⟩], ⟨4, 3, 0, 3, 3⟩⟩ := by
  with_unfolding_all decide

/-- A non-positive waypoint number floors and clamps to a zero budget. -/
lemma capWaypoints_eq_zero (q : ℚ) (h : q ≤ 0) : capWaypoints q = 0 := by
  unfold capWaypoints
  rw [Int.toNat_eq_zero]
  have hf : ⌊q⌋ ≤ 0 := by
    have := Int.floor_mono h
    simpa using this
  omega

/-- The tuner rejects degenerate inputs before any search work. -/
lemma tuneAutoRouteParams_none (sqrtQ : ℚ → ℚ) (points : List SpawnXYZ)
    (center : XY) (maxWaypoints : ℚ)
    (h : points = [] ∨ maxWaypoints ≤ 0) :
    tuneAutoRouteParams sqrtQ points center maxWaypoints = none := by
  rcases h with h | h
  · subst h
    simp only [tuneAutoRouteParams]
    by_cases hc : capWaypoints maxWaypoints = 0
    · rw [if_pos hc]
    · have h0 : ([] : List SpawnXYZ).length = 0 := rfl
      rw [if_neg hc, if_pos h0]
  · simp only [tuneAutoRouteParams]
    rw [if_pos (capWaypoints_eq_zero maxWaypoints h)]

/-- Claim C6: `tuneAutoRouteParams` returns null for an empty point set or a
non-positive waypoint budget, for every center and every interpretation of
`Math.sqrt`. -/
theorem tuneAutoRouteParams_null_on_degenerate (sqrtQ : ℚ → ℚ)
    (points : List SpawnXYZ) (center : XY) (maxWaypoints : ℚ)
    (h : points = [] ∨ maxWaypoints ≤ 0) :
    tuneAutoRouteParams sqrtQ points center maxWaypoints = none :=
  tuneAutoRouteParams_none sqrtQ points center maxWaypoints h

/-- Witness for C6: the empty point set gives null. -/
theorem tuneAutoRouteParams_null_on_degenerate_witness :
    tuneAutoRouteParams (fun q => q) [] ⟨0, 0⟩ 5 = none :=
  tuneAutoRouteParams_null_on_degenerate (fun q => q) [] ⟨0, 0⟩ 5
    (Or.inl rfl)

/-- Claim C9: the three entry points are total Lean functions, and every
degenerate input (empty point list, non-positive radius, empty or non-positive
waypoint budget) yields the documented normal empty/null/populated result
rather than an error. -/
theorem entryPoints_total_on_degenerate_inputs :
    (∀ radius : ℚ, computeNeighborCounts [] radius = []) ∧
    (∀ (points : List SpawnXYZ) (radius : ℚ), radius ≤ 0 →
      ∀ p ∈ points,
        countGet (computeNeighborCounts points radius) p.id = some 1) ∧
    (∀ (denseIds : List ℤ) (settings : AutoRouteSettings),
      generateAutoRoute [] denseIds settings = ⟨[], ⟨0, 0, 0, 0, 0⟩⟩) ∧
    (∀ (points : List SpawnXYZ) (denseIds : List ℤ)
        (settings : AutoRouteSettings), settings.maxWaypoints ≤ 0 →
      (generateAutoRoute points denseIds settings).route = [] ∧
      (generateAutoRoute points denseIds settings).stats.picked = 0 ∧
      (generateAutoRoute points denseIds settings).stats.total =
        points.length) ∧
    (∀ (sqrtQ : ℚ → ℚ) (center : XY) (mw : ℚ),
      tuneAutoRouteParams sqrtQ [] center mw = none) ∧
    (∀ (sqrtQ : ℚ → ℚ) (points : List SpawnXYZ) (center : XY) (mw : ℚ),
      mw ≤ 0 → tuneAutoRouteParams sqrtQ points center mw = none) := by
  refine ⟨fun radius => rfl, ?_, ?_, ?_, ?_, ?_⟩
  · intro points radius hr p hp
    have hne : ¬ points.length = 0 := by
      rw [List.length_eq_zero]
      exact List.ne_nil_of_mem hp
    unfold computeNeighborCounts
    rw [if_neg hne, if_pos (not_lt.mpr hr)]
    exact countGet_foldl_countSet_const 1 points [] p.id
      (List.mem_map.mpr ⟨p, hp, rfl⟩)
  · intro denseIds settings
    simp only [generateAutoRoute]
    by_cases hc : capWaypoints settings.maxWaypoints = 0
    · rw [if_pos hc]
      rfl
    · rw [if_neg hc]
      rfl
  · intro points denseIds settings hms
    obtain ⟨_, _, _, _, h5, h6⟩ :=
      generateAutoRoute_props points denseIds settings
    have hcap := capWaypoints_eq_zero settings.maxWaypoints hms
    have hroute := h6 (Or.inl hcap)
    refine ⟨hroute, ?_, ?_⟩
    · rw [h5, hroute]
      rfl
    · rw [h5]
  · intro sqrtQ center mw
    exact tuneAutoRouteParams_none sqrtQ [] center mw (Or.inl rfl)
  · intro sqrtQ points center mw hmw
    exact tuneAutoRouteParams_none sqrtQ points center mw (Or.inr hmw)

/-- Witness for C9: concrete degenerate inputs produce the documented
results. -/
theorem entryPoints_total_on_degenerate_inputs_witness :
    countGet (computeNeighborCounts [⟨1, 2, 3, 0⟩] (-5)) 1 = some 1 ∧
    tuneAutoRouteParams (fun q => q) [⟨1, 2, 3, 0⟩] ⟨0, 0⟩ (-3) = none :=
  ⟨entryPoints_total_on_degenerate_inputs.2.1 [⟨1, 2, 3, 0⟩] (-5)
      (by norm_num) ⟨1, 2, 3, 0⟩ (by simp),
    entryPoints_total_on_degenerate_inputs.2.2.2.2.2 (fun q => q)
      [⟨1, 2, 3, 0⟩] ⟨0, 0⟩ (-3) (by norm_num)⟩

end AutoRoute
